import Mathlib

set_option autoImplicit false

/-!
Verification of the text-extraction helpers in
`pymatgen/io/qchem_io/temp_utils.py` and of the `SpectrumPlotter` class in
`src/pymatgen/vis/plotters.py`, as a shallow embedding in Lean.

Python's `re` module is modelled by a small regular-expression engine over an
abstract syntax tree (`RE`): a backtracking matcher that enumerates candidate
matches in the same priority order as Python's engine (alternatives left to
right, repetition greedy), so that the head of the enumeration is the match
Python reports.  Capture groups record the most recent captured substring, as
in Python.  Matching uses a fuel parameter that strictly bounds the recursion
depth; the wrapper passes a fuel large enough for every search that the
embedded code performs (repetition bodies must consume input to iterate, so the
depth of any search path is below `(reSize re + 2) * (length s + 2)`).
-/

/-- Python exception outcomes raised by the embedded code. -/
inductive PyErr : Type
  | nameError (missing : String)
  | indexError
  | valueError (typeName : String) (attrName : String)
  | attributeError (attrName : String)
deriving DecidableEq

/-- Result of running a piece of Python code: a value, or a raised exception. -/
inductive PyResult (α : Type) : Type
  | ok (val : α)
  | raised (err : PyErr)
deriving DecidableEq

/-- Regular-expression abstract syntax: the constructs used by the patterns the
embedded code builds (`\s*`, `(?P<name>...)`, `(?:...)+` via `cat`/`star`,
character classes `\d` and `\s`, and `.`).  Group indices are explicit and
follow Python's numbering of opening parentheses. -/
inductive RE : Type
  | eps
  | ch (c : Char)
  | digit
  | space
  | dot
  | cat (a b : RE)
  | alt (a b : RE)
  | star (a : RE)
  | group (idx : Nat) (gname : Option String) (a : RE)
deriving DecidableEq

/-- Structural size of a pattern, used to bound matching fuel. -/
def reSize : RE → Nat
  | .eps => 1
  | .ch _ => 1
  | .digit => 1
  | .space => 1
  | .dot => 1
  | .cat a b => reSize a + reSize b + 1
  | .alt a b => reSize a + reSize b + 1
  | .star a => reSize a + 1
  | .group _ _ a => reSize a + 1

/-- Python's `\s` class on the characters that occur in this development. -/
def isSpaceChar (c : Char) : Bool :=
  c = ' ' || c = '\t' || c = '\n' || c = '\r' || c = '\x0b' || c = '\x0c'

/-- Captured substrings: group index paired with the captured characters, most
recent capture first (Python keeps the last repetition's capture). -/
abbrev Caps := List (Nat × List Char)

/-- Backtracking matcher.  `mtch fuel dotAll re s caps` enumerates the
candidate outcomes `(remaining suffix, captures)` of matching `re` against a
prefix of `s`, in Python's preference order: the head of the list is the
outcome Python's engine commits to.  `dotAll` is true when the pattern was
compiled with `re.DOTALL` (then `.` also matches a newline).  A repetition
iterates only while it consumes input, which is also how Python avoids looping
on empty repetition matches. -/
def mtch : Nat → Bool → RE → List Char → Caps → List (List Char × Caps)
  | 0, _, _, _, _ => []
  | _ + 1, _, .eps, s, caps => [(s, caps)]
  | _ + 1, _, .ch c, s, caps =>
    match s with
    | [] => []
    | a :: rest => if a = c then [(rest, caps)] else []
  | _ + 1, _, .digit, s, caps =>
    match s with
    | [] => []
    | a :: rest => if a.isDigit then [(rest, caps)] else []
  | _ + 1, _, .space, s, caps =>
    match s with
    | [] => []
    | a :: rest => if isSpaceChar a then [(rest, caps)] else []
  | _ + 1, dotAll, .dot, s, caps =>
    match s with
    | [] => []
    | a :: rest => if dotAll || !(a = '\n') then [(rest, caps)] else []
  | fuel + 1, dotAll, .cat a b, s, caps =>
    (mtch fuel dotAll a s caps).flatMap fun sc => mtch fuel dotAll b sc.1 sc.2
  | fuel + 1, dotAll, .alt a b, s, caps =>
    mtch fuel dotAll a s caps ++ mtch fuel dotAll b s caps
  | fuel + 1, dotAll, .star a, s, caps =>
    ((mtch fuel dotAll a s caps).flatMap fun sc =>
      if sc.1.length < s.length then mtch fuel dotAll (.star a) sc.1 sc.2 else [])
      ++ [(s, caps)]
  | fuel + 1, dotAll, .group i _ a, s, caps =>
    (mtch fuel dotAll a s caps).map fun sc =>
      (sc.1, (i, s.take (s.length - sc.1.length)) :: sc.2)

/-- Fuel sufficient for any search over `s` with pattern `re`. -/
def mtchFuel (re : RE) (s : List Char) : Nat :=
  (reSize re + 2) * (s.length + 2)

/-- The match Python's engine reports at the current position, if any. -/
def firstMatch (dotAll : Bool) (re : RE) (s : List Char) :
    Option (List Char × Caps) :=
  (mtch (mtchFuel re s) dotAll re s []).head?

/-- `re.finditer` scan: try the current position; on a match continue after it
(advancing one character past a zero-width match, as Python does), otherwise
advance one character.  The fuel is the number of remaining scan positions. -/
def finditerAux (dotAll : Bool) (re : RE) : Nat → List Char → List Caps
  | 0, _ => []
  | fuel + 1, s =>
    match firstMatch dotAll re s with
    | some (rest, caps) =>
      if rest.length < s.length then
        caps :: finditerAux dotAll re fuel rest
      else
        caps ::
          (match s with
           | [] => []
           | _ :: t => finditerAux dotAll re fuel t)
    | none =>
      match s with
      | [] => []
      | _ :: t => finditerAux dotAll re fuel t

/-- All non-overlapping matches of `re` in `s`, left to right, as their capture
records. -/
def pyFinditer (dotAll : Bool) (re : RE) (s : List Char) : List Caps :=
  finditerAux dotAll re (s.length + 1) s

/-- Group indices of a pattern in Python's numbering order. -/
def groupIdxs : RE → List Nat
  | .eps => []
  | .ch _ => []
  | .digit => []
  | .space => []
  | .dot => []
  | .cat a b => groupIdxs a ++ groupIdxs b
  | .alt a b => groupIdxs a ++ groupIdxs b
  | .star a => groupIdxs a
  | .group i _ a => i :: groupIdxs a

/-- Named groups of a pattern with their indices. -/
def namedGroups : RE → List (String × Nat)
  | .eps => []
  | .ch _ => []
  | .digit => []
  | .space => []
  | .dot => []
  | .cat a b => namedGroups a ++ namedGroups b
  | .alt a b => namedGroups a ++ namedGroups b
  | .star a => namedGroups a
  | .group i gname a =>
    match gname with
    | some n => (n, i) :: namedGroups a
    | none => namedGroups a

/-- The value captured for group `i`, if the group participated in the match. -/
def capLookup (caps : Caps) (i : Nat) : Option String :=
  (caps.find? fun p => p.1 == i).map fun p => String.mk p.2

/-- `match.groups()`: one entry per group of the pattern, in numbering order,
`none` for a group that did not participate. -/
def mGroups (re : RE) (caps : Caps) : List (Option String) :=
  (groupIdxs re).map (capLookup caps)

/-- `match.groupdict()`: one entry per named group of the pattern. -/
def mGroupdict (re : RE) (caps : Caps) : List (String × Option String) :=
  (namedGroups re).map fun p => (p.1, capLookup caps p.2)

/-- `match.group(name)`. -/
def mGroupNamed (re : RE) (caps : Caps) (gname : String) : Option String :=
  ((namedGroups re).find? fun p => p.1 == gname).bind fun p => capLookup caps p.2

/-- The pattern for a literal string of characters. -/
def strRE (s : String) : RE :=
  s.toList.foldr (fun c acc => .cat (.ch c) acc) .eps

/-- `\s*`. -/
def spaceStar : RE := .star .space

/-- `(?:a)+` as `a` followed by `(?:a)*`. -/
def plusRE (a : RE) : RE := .cat a (.star a)

/-- Number of capture groups of a pattern. -/
def numGroups (re : RE) : Nat := (groupIdxs re).length

/-- Shift every group index of a pattern by `k`: Python renumbers the groups of
a subpattern when pattern texts are concatenated. -/
def shiftGroups (k : Nat) : RE → RE
  | .eps => .eps
  | .ch c => .ch c
  | .digit => .digit
  | .space => .space
  | .dot => .dot
  | .cat a b => .cat (shiftGroups k a) (shiftGroups k b)
  | .alt a b => .alt (shiftGroups k a) (shiftGroups k b)
  | .star a => .star (shiftGroups k a)
  | .group i gname a => .group (i + k) gname (shiftGroups k a)

/-! ## Embedding of `pymatgen/io/qchem_io/temp_utils.py` -/

/-- The names bound at module level by the import statements at the top of
`temp_utils.py`: `import re`, `import logging`, `import os`,
`from monty.io import zopen`, `from monty.json import MSONable`,
`from monty.re import regrep`.  The name `collections` is not among them. -/
def moduleImports : List String :=
  ["re", "logging", "os", "zopen", "MSONable", "regrep"]

/-- `read_pattern(text_str, patterns, terminate_on_match=False, postprocess=str)`.

The patterns mapping is an insertion-ordered association list of compiled
patterns (compilation of an `RE` value cannot fail, matching the source's
assumption that the caller supplies valid pattern strings).  The function body
first builds `compiled`, then evaluates `collections.defaultdict(list)`;
`collections` is not a name bound in the module, so that line raises
`NameError` before any text is scanned.  The conditional below keeps the rest
of the body — the scan the source would perform if the name resolved — in the
unreachable branch.  A captured group value may be `None` in Python, so the
post-processing callable is modelled on `Option String`. -/
def read_pattern {α : Type} (text_str : List Char) (patterns : List (String × RE))
    (terminate_on_match : Bool) (postprocess : Option String → α) :
    PyResult (List (String × List (List α))) :=
  let compiled := patterns
  if "collections" ∈ moduleImports then
    .ok (compiled.map fun kp =>
      let ms := pyFinditer true kp.2 text_str
      let ms := if terminate_on_match then ms.take 1 else ms
      (kp.1, ms.map fun caps => (mGroups kp.2 caps).map postprocess))
  else
    .raised (.nameError "collections")

/-- A parsed table row: an ordered list of positional group values when the
row pattern has no named groups, a name-to-value mapping when it does. -/
inductive Row (α : Type) : Type
  | pos (vals : List α)
  | named (fields : List (String × α))
deriving DecidableEq

/-- A table is a list of rows. -/
abbrev Table (α : Type) := List (Row α)

/-- The value retained by `new_read_table_pattern` before the optional
`attribute_name` wrapping: a single table (`last_one_only`) or the list of all
tables. -/
inductive RetVal (α : Type) : Type
  | one (t : Table α)
  | many (ts : List (Table α))
deriving DecidableEq

/-- The return value of `new_read_table_pattern`: the retained value, bare or
wrapped in a single-entry dict under `attribute_name`. -/
inductive TPRet (α : Type) : Type
  | bare (v : RetVal α)
  | attr (key : String) (v : RetVal α)
deriving DecidableEq

/-- The `attribute_name` wrapping at the end of `new_read_table_pattern`. -/
def wrapRet {α : Type} (attribute_name : Option String) (v : RetVal α) : TPRet α :=
  match attribute_name with
  | some key => .attr key v
  | none => .bare v

/-- The composite pattern `new_read_table_pattern` compiles:
`header_pattern + r"\s*(?P<table_body>(?:" + row_pattern + r")+)\s*" +
footer_pattern`.  Concatenating the pattern texts renumbers the groups of the
row and footer patterns, exactly as below: the header keeps its groups,
`table_body` receives the next index, and the row and footer groups follow. -/
def tableRE (header_pattern row_pattern footer_pattern : RE) : RE :=
  let h := numGroups header_pattern
  let r := numGroups row_pattern
  .cat header_pattern (.cat spaceStar (.cat
    (.group (h + 1) (some "table_body") (plusRE (shiftGroups (h + 1) row_pattern)))
    (.cat spaceStar (shiftGroups (h + 1 + r) footer_pattern))))

/-- The body of the row loop: `d = ml.groupdict(); if len(d) > 0: {k:
postprocess(v) for k, v in d.items()} else: [postprocess(v) for v in
ml.groups()]`. -/
def processRow {α : Type} (rp : RE) (postprocess : Option String → α)
    (caps : Caps) : Row α :=
  let d := mGroupdict rp caps
  if 0 < d.length then
    .named (d.map fun kv => (kv.1, postprocess kv.2))
  else
    .pos ((mGroups rp caps).map postprocess)

/-- The `tables` list built by the main loop of `new_read_table_pattern`: one
table per match of the composite pattern (compiled with `re.MULTILINE |
re.DOTALL`, hence `dotAll := true`), each table obtained by re-scanning the
captured `table_body` span with `rp = re.compile(row_pattern)` (compiled
without flags, hence `dotAll := false`).  The group `"table_body"` is a
required part of every composite match, so the lookup of its capture always
succeeds; the `none` arm below is unreachable. -/
def tablesOf {α : Type} (text_str : List Char)
    (header_pattern row_pattern footer_pattern : RE)
    (postprocess : Option String → α) : List (Table α) :=
  let table_pattern := tableRE header_pattern row_pattern footer_pattern
  let rp := row_pattern
  (pyFinditer true table_pattern text_str).map fun mt =>
    match mGroupNamed table_pattern mt "table_body" with
    | some table_body_text =>
      (pyFinditer false rp table_body_text.toList).map (processRow rp postprocess)
    | none => []

/-- `new_read_table_pattern(text_str, header_pattern, row_pattern,
footer_pattern, postprocess=str, attribute_name=None, last_one_only=False)`.

After the loop builds `tables`, `last_one_only` retains `tables[-1]` — which on
an empty list raises `IndexError` — and `attribute_name` optionally wraps the
retained value in a single-entry dict. -/
def new_read_table_pattern {α : Type} (text_str : List Char)
    (header_pattern row_pattern footer_pattern : RE)
    (postprocess : Option String → α) (attribute_name : Option String)
    (last_one_only : Bool) : PyResult (TPRet α) :=
  let tables := tablesOf text_str header_pattern row_pattern footer_pattern postprocess
  if last_one_only then
    match tables.getLast? with
    | some t => .ok (wrapRet attribute_name (.one t))
    | none => .raised .indexError
  else
    .ok (wrapRet attribute_name (.many tables))

/-- Decimal value of a digit string. -/
def digitsToNat : List Char → Nat → Nat
  | [], acc => acc
  | c :: rest, acc => digitsToNat rest (acc * 10 + (c.toNat - '0'.toNat))

/-- `int` as post-processing callable: on the decimal digit strings produced in
this development `int(v)` is exact; elsewhere (non-numeric text, `None`)
Python's `int` raises, which no embedded call path reaches. -/
def pyInt (v : Option String) : Int :=
  match v with
  | some s => Int.ofNat (digitsToNat s.toList 0)
  | none => 0

/-! ## Embedding of `src/pymatgen/vis/plotters.py` (`SpectrumPlotter`)

Coordinate sequences are modelled over `ℚ`; the numpy broadcasts `sp.y +
self.yshift * idx` (array plus scalar) and `sp.y + base` (array plus scalar or
array of equal length — the stacked spectra of one plot share a mesh) are
elementwise additions.  Rendering is modelled by the sequence of drawing calls
issued to the matplotlib axes. -/

/-- A matplotlib color specification. -/
abbrev Color := String

/-- A duck-typed spectrum object.  The `x` and `y` coordinate attributes may be
absent — `add_spectrum` probes them with `hasattr` — while `XLABEL`, `YLABEL`
are class attributes every `Spectrum` subclass defines; `typeName` stands for
`type(spectrum)`. -/
structure SpectrumObj where
  x? : Option (List ℚ)
  y? : Option (List ℚ)
  XLABEL : String
  YLABEL : String
  typeName : String
deriving DecidableEq

/-- The state of a `SpectrumPlotter`: the constructor arguments together with
the mutable accumulator fields `colors` (a plain append-only list) and
`_spectra` (an insertion-ordered dict from label to spectrum). -/
structure SpectrumPlotter where
  xshift : ℚ
  yshift : ℚ
  stack : Bool
  colors_cycle : List Color
  colors : List Color
  _spectra : List (String × SpectrumObj)
deriving DecidableEq

/-- `palettable.colorbrewer.qualitative.Set1_9.mpl_colors`: an external library
constant, a fixed list of nine colors, modelled as opaque color names. -/
def set1_9 : List Color :=
  ["set1c1", "set1c2", "set1c3", "set1c4", "set1c5",
   "set1c6", "set1c7", "set1c8", "set1c9"]

/-- `SpectrumPlotter.__init__` with the default color cycle: empty `colors`
list and empty `_spectra` dict. -/
def SpectrumPlotter.init (xshift yshift : ℚ) (stack : Bool) : SpectrumPlotter :=
  ⟨xshift, yshift, stack, set1_9, [], []⟩

/-- Python dict assignment `d[label] = v`: replaces the value in place when the
key is present (keeping its position), appends a new entry otherwise. -/
def dictInsert {β : Type} (d : List (String × β)) (k : String) (v : β) :
    List (String × β) :=
  match d with
  | [] => [(k, v)]
  | (k0, v0) :: rest => if k0 = k then (k, v) :: rest else (k0, v0) :: dictInsert rest k v

/-- Python dict lookup `d[l]` as an `Option`. -/
def dictFind {β : Type} : List (String × β) → String → Option β
  | [], _ => none
  | (k, v) :: rest, l => if k = l then some v else dictFind rest l

/-- `self.colors_cycle[i]`: the palette is a fixed nine-element list and `i` is
reduced modulo its length, so the index is always in range and the fallback
below is never reached. -/
def cycleGet (cyc : List Color) (i : Nat) : Color := cyc.getD i "black"

/-- `add_spectrum(self, label, spectrum, color=None)`.

The `hasattr` probe over `"xy"` checks `x` then `y` and raises before any
mutation, so the state returned alongside a raised error is the input state.
On success `self._spectra[label] = spectrum` runs first, and then the appended
color is `color or self.colors_cycle[len(self._spectra) % len(self.colors_cycle)]`
(the length taken after the insertion). -/
def add_spectrum (self : SpectrumPlotter) (label : String) (spectrum : SpectrumObj)
    (color : Option Color) : SpectrumPlotter × Option PyErr :=
  if spectrum.x?.isNone then
    (self, some (.valueError spectrum.typeName "x"))
  else if spectrum.y?.isNone then
    (self, some (.valueError spectrum.typeName "y"))
  else
    let spectra := dictInsert self._spectra label spectrum
    let c :=
      match color with
      | some c0 => c0
      | none => cycleGet self.colors_cycle (spectra.length % self.colors_cycle.length)
    (⟨self.xshift, self.yshift, self.stack, self.colors_cycle,
      self.colors ++ [c], spectra⟩, none)

/-- The color a successful `add_spectrum` call appends: the explicit `color`
argument, or the palette entry at the post-insertion entry count modulo the
palette size. -/
def appendedColor (self : SpectrumPlotter) (label : String) (spectrum : SpectrumObj)
    (color : Option Color) : Color :=
  match color with
  | some c0 => c0
  | none => cycleGet self.colors_cycle
      ((dictInsert self._spectra label spectrum).length % self.colors_cycle.length)

/-- One `add_spectrum` call: its arguments. -/
structure AddCall where
  label : String
  spectrum : SpectrumObj
  color : Option Color
deriving DecidableEq

/-- A sequence of `add_spectrum` calls, stopping at the first raised error. -/
def addCalls (self : SpectrumPlotter) : List AddCall → SpectrumPlotter × Option PyErr
  | [] => (self, none)
  | c :: rest =>
    match add_spectrum self c.label c.spectrum c.color with
    | (p1, none) => addCalls p1 rest
    | (p1, some e) => (p1, some e)

/-- The running stacking baseline `base` of `get_plot`: the float `0.0` it is
initialised with, or the numpy array it becomes after the first stacked
curve. -/
inductive BCast : Type
  | scalar (v : ℚ)
  | arr (vs : List ℚ)
deriving DecidableEq

/-- numpy `sp.y + base`: elementwise addition, broadcasting a scalar. -/
def addBase (ys : List ℚ) : BCast → List ℚ
  | .scalar v => ys.map fun y => y + v
  | .arr vs => ys.zipWith (fun a b => a + b) vs

/-- The drawn vertical coordinates `sp.y + self.yshift * idx`. -/
def shiftY (yshift : ℚ) (idx : Nat) (ys : List ℚ) : List ℚ :=
  ys.map fun y => y + yshift * (idx : ℚ)

/-- A call issued to the matplotlib axes while rendering. -/
inductive AxCmd : Type
  | plotCurve (x y : List ℚ) (color : Color) (label : String)
  | fillBetween (x : List ℚ) (y1 : BCast) (y2 : List ℚ) (color : Color) (label : String)
  | setXLabel (s : String)
  | setYLabel (s : String)
  | setXlim (lo hi : ℚ)
  | setYlim (lo hi : ℚ)
  | legendCmd
deriving DecidableEq

/-- The loop of `get_plot` over `self._spectra.items()` with its running index
and stacking baseline.  Reading a coordinate attribute that is absent raises
`AttributeError`; `self.colors[idx]` out of range raises `IndexError`; neither
happens for a plotter populated through `add_spectrum`.  In the unstacked
branch the baseline is left untouched; in the stacked branch `base = sp.y +
base` accumulates the raw (unshifted) vertical values. -/
def plotEntries (stack : Bool) (yshift : ℚ) (colors : List Color) :
    List (String × SpectrumObj) → Nat → BCast → PyResult (List AxCmd)
  | [], _, _ => .ok []
  | (key, sp) :: rest, idx, base =>
    match sp.x?, sp.y? with
    | some xs, some ys =>
      match colors.get? idx with
      | some color =>
        let cmds :=
          if stack then
            [AxCmd.fillBetween xs base (shiftY yshift idx ys) color key]
          else
            [AxCmd.plotCurve xs (shiftY yshift idx ys) color key]
        let base1 := if stack then BCast.arr (addBase ys base) else base
        match plotEntries stack yshift colors rest (idx + 1) base1 with
        | .ok more =>
          .ok (cmds ++ [AxCmd.setXLabel sp.XLABEL, AxCmd.setYLabel sp.YLABEL] ++ more)
        | .raised e => .raised e
      | none => .raised .indexError
    | _, _ => .raised (.attributeError "coordinate")

/-- `get_plot(self, xlim=None, ylim=None)`: the sequence of axes calls.  The
loop starts with `base = 0.0` and index `0`; afterwards the optional axis
limits are set and the legend is drawn.  `self.xshift` is not consulted
anywhere in the body. -/
def get_plot (self : SpectrumPlotter) (xlim ylim : Option (ℚ × ℚ)) :
    PyResult (List AxCmd) :=
  match plotEntries self.stack self.yshift self.colors self._spectra 0 (.scalar 0) with
  | .ok cmds =>
    let cmds := cmds ++
      (match xlim with
       | some l => [AxCmd.setXlim l.1 l.2]
       | none => [])
    let cmds := cmds ++
      (match ylim with
       | some l => [AxCmd.setYlim l.1 l.2]
       | none => [])
    .ok (cmds ++ [AxCmd.legendCmd])
  | .raised e => .raised e

/-- The `fill_between` calls among a sequence of axes calls, in order. -/
def fillCmds : List AxCmd → List AxCmd
  | [] => []
  | c :: rest =>
    match c with
    | .fillBetween x y1 y2 color label =>
      .fillBetween x y1 y2 color label :: fillCmds rest
    | _ => fillCmds rest

/-- The tables contained in a `new_read_table_pattern` return value. -/
def retTables {α : Type} : TPRet α → List (Table α)
  | .bare (.one t) => [t]
  | .bare (.many ts) => ts
  | .attr _ (.one t) => [t]
  | .attr _ (.many ts) => ts

/-- Whether a row has the name-to-value mapping shape. -/
def rowIsNamed {α : Type} : Row α → Bool
  | .pos _ => false
  | .named _ => true

/-! ## Concrete inputs used by the claim witnesses -/

/-- The literal scenario text `"BEGIN\nA 1\nA 2\nEND"`. -/
def c1Text : List Char := "BEGIN\nA 1\nA 2\nEND".toList

/-- Header pattern `"BEGIN\n"` (the spec's `"BEGIN\\n"`). -/
def c1Header : RE := strRE "BEGIN\n"

/-- Row pattern `"A (\d+)\n"`: a single unnamed capture group of digits. -/
def c1Row : RE :=
  .cat (strRE "A ") (.cat (.group 1 none (plusRE .digit)) (.ch '\n'))

/-- Footer pattern `"END"`. -/
def c1Footer : RE := strRE "END"

/-- A text the composite table pattern does not match. -/
def c4Text : List Char := "no table here".toList

/-- Row pattern `"A (?P<val>\d+)\n"`: one named capture group. -/
def c6Row : RE :=
  .cat (strRE "A ") (.cat (.group 1 (some "val") (plusRE .digit)) (.ch '\n'))

/-- The value `new_read_table_pattern` returns on the scenario text with the
named-group row pattern and `last_one_only=True`. -/
def c6Ret : TPRet Int :=
  .bare (.one [Row.named [("val", 1)], Row.named [("val", 2)]])

/-- A well-formed spectrum drawn in the horizontal-shift scenario. -/
def c3Sp : SpectrumObj := ⟨some [0], some [2], "xlab", "ylab", "Spectrum"⟩

/-- A plotter configured with `xshift = 1` and `yshift = 5` holding two
spectra, as left by two successful `add_spectrum` calls. -/
def c3Plotter : SpectrumPlotter :=
  ⟨1, 5, false, set1_9, ["k", "r"], [("s1", c3Sp), ("s2", c3Sp)]⟩

/-- An object with an `x` attribute but no `y` attribute. -/
def c8Spectrum : SpectrumObj := ⟨some [0], none, "xlab", "ylab", "FakeSpectrum"⟩

/-- First spectrum of the stacked-mode scenario. -/
def c9Sp1 : SpectrumObj := ⟨some [1, 2], some [3, 4], "E", "I", "Spectrum"⟩

/-- Second spectrum of the stacked-mode scenario. -/
def c9Sp2 : SpectrumObj := ⟨some [1, 2], some [5, 6], "E", "I", "Spectrum"⟩

/-- A well-formed spectrum for the accumulator-invariant scenario. -/
def c10Sp1 : SpectrumObj := ⟨some [0], some [1], "xlab", "ylab", "Spectrum"⟩

/-- A second well-formed spectrum stored under the same label. -/
def c10Sp2 : SpectrumObj := ⟨some [0], some [9], "xlab", "ylab", "Spectrum"⟩

/-- Three calls, the third reusing the first call's label. -/
def c10Calls : List AddCall :=
  [⟨"a", c10Sp1, none⟩, ⟨"b", c10Sp1, some "red"⟩, ⟨"a", c10Sp2, none⟩]

/-! ## Helper lemmas -/

set_option maxRecDepth 10000

theorem getLast?_mem {α : Type} {l : List α} {a : α} (h : l.getLast? = some a) :
    a ∈ l := by
  cases l with
  | nil => simp at h
  | cons x xs =>
    have hne : x :: xs ≠ [] := by simp
    rw [List.getLast?_eq_getLast _ hne] at h
    have hm := List.getLast_mem hne
    rwa [Option.some_inj.mp h] at hm

theorem exists_getLast?_of_ne_nil {α : Type} {l : List α} (h : l ≠ []) :
    ∃ a, l.getLast? = some a := by
  cases hl : l.getLast? with
  | some a => exact ⟨a, rfl⟩
  | none => exact absurd (List.getLast?_eq_none_iff.mp hl) h

theorem rowIsNamed_processRow {α : Type} (rp : RE) (pp : Option String → α)
    (caps : Caps) :
    rowIsNamed (processRow rp pp caps) = !(namedGroups rp).isEmpty := by
  unfold processRow
  cases h : namedGroups rp with
  | nil => simp [mGroupdict, h, rowIsNamed]
  | cons p rest => simp [mGroupdict, h, rowIsNamed]

theorem retTables_wrapRet_many {α : Type} (an : Option String) (ts : List (Table α)) :
    retTables (wrapRet an (.many ts)) = ts := by
  cases an <;> rfl

theorem retTables_wrapRet_one {α : Type} (an : Option String) (t : Table α) :
    retTables (wrapRet an (.one t)) = [t] := by
  cases an <;> rfl

/-! ## Claims C1, C2, C7, C4, C5 -/

/-- C1: on the text "BEGIN\nA 1\nA 2\nEND" with header pattern "BEGIN\n", row
pattern "A (\d+)\n", footer pattern "END", postprocess `int`,
`last_one_only=True` and no attribute name, `new_read_table_pattern` returns
exactly `[[1], [2]]`: one table collapsed to its row list, two rows in order of
appearance, each a single-element sequence holding the integer-converted
captured value. -/
theorem c1_literal_scenario :
    new_read_table_pattern c1Text c1Header c1Row c1Footer pyInt none true
      = .ok (.bare (.one [Row.pos [1], Row.pos [2]])) := by decide

/-- C2: every call to `read_pattern`, whatever the text, pattern mapping, flag
and postprocess arguments, raises `NameError` for the unbound module-level name
`collections` before scanning any text, and returns no result. -/
theorem c2_read_pattern_always_nameerror {α : Type} (text_str : List Char)
    (patterns : List (String × RE)) (terminate_on_match : Bool)
    (postprocess : Option String → α) :
    read_pattern text_str patterns terminate_on_match postprocess
      = .raised (.nameError "collections") := rfl

/-- C7 (code evidence): at the concrete input text "aa" with the single
pattern mapping {"key": "a"} and `terminate_on_match=True`, `read_pattern`
raises `NameError` instead of producing a result list for "key": the claimed
at-most-one-record behavior is unobservable because every call fails first. -/
theorem c7_terminate_on_match_unreachable :
    read_pattern "aa".toList [("key", strRE "a")] true (fun v => v)
      = .raised (.nameError "collections") := rfl

/-- C4: when the composite header+body+footer pattern has zero matches in the
text, `new_read_table_pattern` with `last_one_only=False` returns the empty
table sequence as a normal successful result, while with `last_one_only=True`
it fails with `IndexError` from the out-of-range access `tables[-1]` on the
empty sequence. -/
theorem c4_zero_matches_behavior {α : Type} (text_str : List Char)
    (header_pattern row_pattern footer_pattern : RE)
    (postprocess : Option String → α) (an : Option String)
    (h : pyFinditer true (tableRE header_pattern row_pattern footer_pattern)
        text_str = []) :
    new_read_table_pattern text_str header_pattern row_pattern footer_pattern
        postprocess an false = .ok (wrapRet an (.many []))
      ∧ new_read_table_pattern text_str header_pattern row_pattern footer_pattern
        postprocess an true = .raised .indexError := by
  constructor <;> simp [new_read_table_pattern, tablesOf, h]

theorem c4_zero_matches_behavior_witness :
    pyFinditer true (tableRE c1Header c1Row c1Footer) c4Text = []
      ∧ (new_read_table_pattern c4Text c1Header c1Row c1Footer pyInt none false
          = .ok (wrapRet none (.many []))
        ∧ new_read_table_pattern c4Text c1Header c1Row c1Footer pyInt none true
          = .raised .indexError) :=
  ⟨by decide, c4_zero_matches_behavior c4Text c1Header c1Row c1Footer pyInt none
    (by decide)⟩

/-- C5: whenever the composite pattern has at least one match,
`new_read_table_pattern` with `last_one_only=True` returns the same content as
the final element of the table sequence returned by the same call with
`last_one_only=False`, all other arguments equal. -/
theorem c5_last_one_only_is_last {α : Type} (text_str : List Char)
    (header_pattern row_pattern footer_pattern : RE)
    (postprocess : Option String → α) (an : Option String)
    (h : pyFinditer true (tableRE header_pattern row_pattern footer_pattern)
        text_str ≠ []) :
    ∃ ts t,
      new_read_table_pattern text_str header_pattern row_pattern footer_pattern
          postprocess an false = .ok (wrapRet an (.many ts))
        ∧ new_read_table_pattern text_str header_pattern row_pattern footer_pattern
          postprocess an true = .ok (wrapRet an (.one t))
        ∧ ts.getLast? = some t := by
  have hne : tablesOf text_str header_pattern row_pattern footer_pattern postprocess
      ≠ [] := by
    simpa [tablesOf, List.map_eq_nil_iff] using h
  obtain ⟨t, ht⟩ := exists_getLast?_of_ne_nil hne
  exact ⟨tablesOf text_str header_pattern row_pattern footer_pattern postprocess, t,
    by simp [new_read_table_pattern], by simp [new_read_table_pattern, ht], ht⟩

theorem c5_last_one_only_is_last_witness :
    pyFinditer true (tableRE c1Header c1Row c1Footer) c1Text ≠ []
      ∧ ∃ ts t,
        new_read_table_pattern c1Text c1Header c1Row c1Footer pyInt none false
            = .ok (wrapRet none (.many ts))
          ∧ new_read_table_pattern c1Text c1Header c1Row c1Footer pyInt none true
            = .ok (wrapRet none (.one t))
          ∧ ts.getLast? = some t :=
  ⟨by decide, c5_last_one_only_is_last c1Text c1Header c1Row c1Footer pyInt none
    (by decide)⟩

/-- C6: in any single call to `new_read_table_pattern`, every row of every
returned table has the same shape, determined solely by whether the row
pattern defines named capture groups: name-to-value mappings when it does,
positional value lists when it does not — never mixed within one result. -/
theorem c6_row_shape_uniform {α : Type} (text_str : List Char)
    (header_pattern row_pattern footer_pattern : RE)
    (postprocess : Option String → α) (an : Option String) (last_one_only : Bool)
    (ret : TPRet α)
    (h : new_read_table_pattern text_str header_pattern row_pattern footer_pattern
        postprocess an last_one_only = .ok ret) :
    ∀ t ∈ retTables ret, ∀ r ∈ t,
      rowIsNamed r = !(namedGroups row_pattern).isEmpty := by
  have key : ∀ t ∈ tablesOf text_str header_pattern row_pattern footer_pattern
      postprocess, ∀ r ∈ t, rowIsNamed r = !(namedGroups row_pattern).isEmpty := by
    intro t ht r hr
    rw [tablesOf] at ht
    obtain ⟨mt, hmt, hteq⟩ := List.mem_map.mp ht
    rw [← hteq] at hr
    split at hr
    · obtain ⟨caps, hcaps, hreq⟩ := List.mem_map.mp hr
      rw [← hreq]
      exact rowIsNamed_processRow row_pattern postprocess caps
    · exact absurd hr (List.not_mem_nil r)
  unfold new_read_table_pattern at h
  cases last_one_only with
  | false =>
    simp only [Bool.false_eq_true, if_false, PyResult.ok.injEq] at h
    rw [← h, retTables_wrapRet_many]
    exact key
  | true =>
    simp only [if_true] at h
    cases hl : (tablesOf text_str header_pattern row_pattern footer_pattern
        postprocess).getLast? with
    | none => rw [hl] at h; cases h
    | some t0 =>
      rw [hl] at h
      simp only [PyResult.ok.injEq] at h
      rw [← h, retTables_wrapRet_one]
      intro t ht
      rw [List.mem_singleton] at ht
      rw [ht]
      exact key t0 (getLast?_mem hl)

theorem c6_row_shape_uniform_witness :
    new_read_table_pattern c1Text c1Header c6Row c1Footer pyInt none true
        = .ok c6Ret
      ∧ ∀ t ∈ retTables c6Ret, ∀ r ∈ t,
        rowIsNamed r = !(namedGroups c6Row).isEmpty :=
  ⟨by decide,
    c6_row_shape_uniform c1Text c1Header c6Row c1Footer pyInt none true c6Ret
      (by decide)⟩

/-- C3 (code evidence): on a plotter configured with `xshift = 1` (and
`yshift = 5`), `get_plot` draws both spectra at their raw x coordinates `[0]`:
`self.xshift` is never consulted in `get_plot`, so no horizontal shift is
applied to any drawn spectrum — contradicting the claim and the constructor's
own docstring — while the vertical values are indeed shifted by
`yshift * idx` (here `[2]` and `[7]`). -/
theorem c3_xshift_never_applied :
    c3Plotter.xshift = 1
      ∧ get_plot c3Plotter none none
        = .ok [.plotCurve [0] [2] "k" "s1", .setXLabel "xlab", .setYLabel "ylab",
               .plotCurve [0] [7] "r" "s2", .setXLabel "xlab", .setYLabel "ylab",
               .legendCmd] := by
  refine ⟨rfl, ?_⟩
  norm_num [get_plot, plotEntries, c3Plotter, c3Sp, shiftY, List.get?]

/-- C8: calling `add_spectrum` with an object lacking the x or the y coordinate
attribute raises a `ValueError` naming the missing attribute and the object's
type, and the plotter's stored spectra mapping and color list are left exactly
as before the call: the returned state is the input state. -/
theorem c8_add_spectrum_validates (self : SpectrumPlotter) (label : String)
    (spectrum : SpectrumObj) (color : Option Color)
    (h : spectrum.x? = none ∨ spectrum.y? = none) :
    ∃ a, add_spectrum self label spectrum color
        = (self, some (.valueError spectrum.typeName a))
      ∧ ((a = "x" ∧ spectrum.x? = none) ∨ (a = "y" ∧ spectrum.y? = none)) := by
  cases hx : spectrum.x? with
  | none => exact ⟨"x", by simp [add_spectrum, hx], Or.inl ⟨rfl, rfl⟩⟩
  | some xs =>
    have hy : spectrum.y? = none := by
      rcases h with h | h
      · rw [hx] at h; cases h
      · exact h
    exact ⟨"y", by simp [add_spectrum, hx, hy], Or.inr ⟨rfl, hy⟩⟩

theorem c8_add_spectrum_validates_witness :
    (c8Spectrum.x? = none ∨ c8Spectrum.y? = none)
      ∧ ∃ a, add_spectrum (SpectrumPlotter.init 0 0 false) "dos" c8Spectrum none
          = (SpectrumPlotter.init 0 0 false,
             some (.valueError c8Spectrum.typeName a))
        ∧ ((a = "x" ∧ c8Spectrum.x? = none) ∨ (a = "y" ∧ c8Spectrum.y? = none)) :=
  ⟨Or.inr rfl,
    c8_add_spectrum_validates (SpectrumPlotter.init 0 0 false) "dos" c8Spectrum none
      (Or.inr rfl)⟩

/-- C9: for a plotter in stacked mode, after adding two spectra with distinct
labels, `get_plot` draws the second spectrum's filled region with a baseline
equal to the first spectrum's shifted vertical values (the first entry's shift
index being 0): the stacking baseline accumulates the previously drawn curve
in insertion order. -/
theorem c9_stacked_second_baseline (xshift yshift : ℚ) (l1 l2 : String)
    (sp1 sp2 : SpectrumObj) (oc1 oc2 : Option Color)
    (xs1 ys1 xs2 ys2 : List ℚ)
    (hx1 : sp1.x? = some xs1) (hy1 : sp1.y? = some ys1)
    (hx2 : sp2.x? = some xs2) (hy2 : sp2.y? = some ys2)
    (hl : l1 ≠ l2) :
    ∃ p1 p2 cmds col1 col2,
      add_spectrum (SpectrumPlotter.init xshift yshift true) l1 sp1 oc1 = (p1, none)
        ∧ add_spectrum p1 l2 sp2 oc2 = (p2, none)
        ∧ get_plot p2 none none = .ok cmds
        ∧ fillCmds cmds
          = [.fillBetween xs1 (.scalar 0) (shiftY yshift 0 ys1) col1 l1,
             .fillBetween xs2 (.arr (shiftY yshift 0 ys1)) (shiftY yshift 1 ys2)
               col2 l2] := by
  have h1 : add_spectrum (SpectrumPlotter.init xshift yshift true) l1 sp1 oc1
      = (⟨xshift, yshift, true, set1_9,
          [appendedColor (SpectrumPlotter.init xshift yshift true) l1 sp1 oc1],
          [(l1, sp1)]⟩, none) := by
    simp [add_spectrum, appendedColor, hx1, hy1, SpectrumPlotter.init, dictInsert]
  have h2 : add_spectrum
      (⟨xshift, yshift, true, set1_9,
        [appendedColor (SpectrumPlotter.init xshift yshift true) l1 sp1 oc1],
        [(l1, sp1)]⟩ : SpectrumPlotter) l2 sp2 oc2
      = (⟨xshift, yshift, true, set1_9,
          [appendedColor (SpectrumPlotter.init xshift yshift true) l1 sp1 oc1,
           appendedColor ⟨xshift, yshift, true, set1_9,
             [appendedColor (SpectrumPlotter.init xshift yshift true) l1 sp1 oc1],
             [(l1, sp1)]⟩ l2 sp2 oc2],
          [(l1, sp1), (l2, sp2)]⟩, none) := by
    simp [add_spectrum, appendedColor, hx2, hy2, dictInsert, hl]
  have h3 : get_plot
      (⟨xshift, yshift, true, set1_9,
        [appendedColor (SpectrumPlotter.init xshift yshift true) l1 sp1 oc1,
         appendedColor ⟨xshift, yshift, true, set1_9,
           [appendedColor (SpectrumPlotter.init xshift yshift true) l1 sp1 oc1],
           [(l1, sp1)]⟩ l2 sp2 oc2],
        [(l1, sp1), (l2, sp2)]⟩ : SpectrumPlotter) none none
      = .ok [.fillBetween xs1 (.scalar 0) (shiftY yshift 0 ys1)
               (appendedColor (SpectrumPlotter.init xshift yshift true) l1 sp1 oc1) l1,
             .setXLabel sp1.XLABEL, .setYLabel sp1.YLABEL,
             .fillBetween xs2 (.arr (shiftY yshift 0 ys1)) (shiftY yshift 1 ys2)
               (appendedColor ⟨xshift, yshift, true, set1_9,
                 [appendedColor (SpectrumPlotter.init xshift yshift true) l1 sp1 oc1],
                 [(l1, sp1)]⟩ l2 sp2 oc2) l2,
             .setXLabel sp2.XLABEL, .setYLabel sp2.YLABEL, .legendCmd] := by
    simp [get_plot, plotEntries, hx1, hy1, hx2, hy2, List.get?, shiftY, addBase]
  exact ⟨_, _, _,
    appendedColor (SpectrumPlotter.init xshift yshift true) l1 sp1 oc1,
    appendedColor ⟨xshift, yshift, true, set1_9,
      [appendedColor (SpectrumPlotter.init xshift yshift true) l1 sp1 oc1],
      [(l1, sp1)]⟩ l2 sp2 oc2,
    h1, h2, h3, by simp [fillCmds]⟩

theorem c9_stacked_second_baseline_witness :
    c9Sp1.x? = some [1, 2] ∧ c9Sp1.y? = some [3, 4]
      ∧ c9Sp2.x? = some [1, 2] ∧ c9Sp2.y? = some [5, 6]
      ∧ "a" ≠ "b"
      ∧ ∃ p1 p2 cmds col1 col2,
        add_spectrum (SpectrumPlotter.init 0 10 true) "a" c9Sp1 none = (p1, none)
          ∧ add_spectrum p1 "b" c9Sp2 none = (p2, none)
          ∧ get_plot p2 none none = .ok cmds
          ∧ fillCmds cmds
            = [.fillBetween [1, 2] (.scalar 0) (shiftY 10 0 [3, 4]) col1 "a",
               .fillBetween [1, 2] (.arr (shiftY 10 0 [3, 4])) (shiftY 10 1 [5, 6])
                 col2 "b"] :=
  ⟨rfl, rfl, rfl, rfl, by decide,
    c9_stacked_second_baseline 0 10 "a" "b" c9Sp1 c9Sp2 none none
      [1, 2] [3, 4] [1, 2] [5, 6] rfl rfl rfl rfl (by decide)⟩

theorem dictFind_dictInsert {β : Type} (d : List (String × β)) (k l : String) (v : β) :
    dictFind (dictInsert d k v) l = if k = l then some v else dictFind d l := by
  induction d with
  | nil => simp [dictInsert, dictFind]
  | cons p rest ih =>
    obtain ⟨k0, v0⟩ := p
    by_cases h0 : k0 = k
    · subst h0
      by_cases h1 : k0 = l
      · simp [dictInsert, dictFind, h1]
      · simp [dictInsert, dictFind, h1]
    · simp only [dictInsert, h0, if_false, dictFind]
      by_cases h1 : k0 = l
      · subst h1
        have hkl : ¬(k = k0) := fun hc => h0 hc.symm
        simp [hkl, dictFind]
      · simp [h1, ih]

theorem keys_dictInsert_mem {β : Type} (d : List (String × β)) (k l : String) (v : β) :
    l ∈ (dictInsert d k v).map Prod.fst ↔ l = k ∨ l ∈ d.map Prod.fst := by
  induction d with
  | nil => simp [dictInsert]
  | cons p rest ih =>
    obtain ⟨k0, v0⟩ := p
    by_cases h0 : k0 = k
    · subst h0
      simp [dictInsert]
    · simp only [dictInsert, h0, if_false, List.map_cons, List.mem_cons, ih]
      tauto

theorem keys_dictInsert_nodup {β : Type} (d : List (String × β)) (k : String) (v : β)
    (h : (d.map Prod.fst).Nodup) : ((dictInsert d k v).map Prod.fst).Nodup := by
  induction d with
  | nil => simp [dictInsert]
  | cons p rest ih =>
    obtain ⟨k0, v0⟩ := p
    rw [List.map_cons, List.nodup_cons] at h
    obtain ⟨hnm, hnd⟩ := h
    by_cases h0 : k0 = k
    · subst h0
      have hins : dictInsert ((k0, v0) :: rest) k0 v = (k0, v) :: rest := by
        simp [dictInsert]
      rw [hins, List.map_cons, List.nodup_cons]
      exact ⟨hnm, hnd⟩
    · simp only [dictInsert, h0, if_false, List.map_cons, List.nodup_cons]
      refine ⟨?_, ih hnd⟩
      rw [keys_dictInsert_mem]
      rintro (rfl | hmem)
      · exact h0 rfl
      · exact hnm hmem

theorem getLast?_cons_or {α : Type} (c : α) (xs : List α) :
    (c :: xs).getLast? = xs.getLast?.or (some c) := by
  induction xs generalizing c with
  | nil => simp
  | cons x xs2 ih =>
    rw [List.getLast?_cons_cons, ih x]
    cases h2 : xs2.getLast? <;> simp [Option.or]

theorem option_map_or {α β : Type} (f : α → β) (a b : Option α) :
    (a.or b).map f = (a.map f).or (b.map f) := by
  cases a <;> simp [Option.or]

/-- C10: after any sequence of n successful `add_spectrum` calls on a freshly
constructed plotter, the color list has exactly n entries while the spectra
mapping holds one entry per distinct label — its keys are exactly the labels
used, without duplicates — and a call reusing an existing label overwrites that
label's stored spectrum (the stored value is the last such call's spectrum)
while still appending a new color, leaving the overwritten entry's earlier
color orphaned in the list. -/
theorem c10_append_only_colors (xshift yshift : ℚ) (stack : Bool)
    (calls : List AddCall)
    (h : ∀ c ∈ calls, c.spectrum.x?.isSome ∧ c.spectrum.y?.isSome) :
    ∃ p', addCalls (SpectrumPlotter.init xshift yshift stack) calls = (p', none)
      ∧ p'.colors.length = calls.length
      ∧ (p'._spectra.map Prod.fst).Nodup
      ∧ (∀ l, l ∈ p'._spectra.map Prod.fst ↔ l ∈ calls.map AddCall.label)
      ∧ (∀ l, dictFind p'._spectra l
          = (calls.filter fun c => c.label == l).getLast?.map AddCall.spectrum) := by
  suffices key : ∀ (calls : List AddCall) (self : SpectrumPlotter),
      (∀ c ∈ calls, c.spectrum.x?.isSome ∧ c.spectrum.y?.isSome) →
      (self._spectra.map Prod.fst).Nodup →
      ∃ p', addCalls self calls = (p', none)
        ∧ p'.colors.length = self.colors.length + calls.length
        ∧ (p'._spectra.map Prod.fst).Nodup
        ∧ (∀ l, l ∈ p'._spectra.map Prod.fst
            ↔ l ∈ self._spectra.map Prod.fst ∨ l ∈ calls.map AddCall.label)
        ∧ (∀ l, dictFind p'._spectra l
            = ((calls.filter fun c => c.label == l).getLast?.map AddCall.spectrum).or
                (dictFind self._spectra l)) by
    obtain ⟨p', h1, h2, h3, h4, h5⟩ :=
      key calls (SpectrumPlotter.init xshift yshift stack) h (by simp [SpectrumPlotter.init])
    refine ⟨p', h1, by simpa [SpectrumPlotter.init] using h2, h3, ?_, ?_⟩
    · intro l
      simpa [SpectrumPlotter.init] using h4 l
    · intro l
      simpa [SpectrumPlotter.init, dictFind, Option.or_none] using h5 l
  intro calls
  induction calls with
  | nil =>
    intro self _ hnd
    exact ⟨self, rfl, by simp, hnd, by simp, by simp⟩
  | cons c rest ih =>
    intro self h hnd
    obtain ⟨hx, hy⟩ := h c (by simp)
    obtain ⟨xs, hxs⟩ := Option.isSome_iff_exists.mp hx
    obtain ⟨ys, hys⟩ := Option.isSome_iff_exists.mp hy
    have hstep : add_spectrum self c.label c.spectrum c.color
        = (⟨self.xshift, self.yshift, self.stack, self.colors_cycle,
            self.colors ++ [appendedColor self c.label c.spectrum c.color],
            dictInsert self._spectra c.label c.spectrum⟩, none) := by
      simp [add_spectrum, appendedColor, hxs, hys]
    obtain ⟨p', hrun, hlen, hnd', hmem, hfind⟩ :=
      ih ⟨self.xshift, self.yshift, self.stack, self.colors_cycle,
          self.colors ++ [appendedColor self c.label c.spectrum c.color],
          dictInsert self._spectra c.label c.spectrum⟩
        (fun c0 hc0 => h c0 (List.mem_cons_of_mem c hc0))
        (keys_dictInsert_nodup self._spectra c.label c.spectrum hnd)
    refine ⟨p', ?_, ?_, hnd', ?_, ?_⟩
    · simp [addCalls, hstep, hrun]
    · rw [hlen]
      simp [List.length_append]
      omega
    · intro l
      rw [hmem l]
      simp only [List.map_cons, List.mem_cons]
      rw [keys_dictInsert_mem]
      tauto
    · intro l
      rw [hfind l]
      simp only [dictFind_dictInsert]
      by_cases hc : c.label = l
      · have hbeq : (c.label == l) = true := by simp [hc]
        simp only [List.filter_cons, hbeq, if_true, getLast?_cons_or,
          option_map_or, Option.or_assoc]
        simp [hc, Option.or]
      · have hbeq : (c.label == l) = false := by simp [hc]
        simp [List.filter_cons, hbeq, hc]

theorem c10_append_only_colors_witness :
    (∀ c ∈ c10Calls, c.spectrum.x?.isSome ∧ c.spectrum.y?.isSome)
      ∧ ∃ p', addCalls (SpectrumPlotter.init 0 0 false) c10Calls = (p', none)
        ∧ p'.colors.length = c10Calls.length
        ∧ (p'._spectra.map Prod.fst).Nodup
        ∧ (∀ l, l ∈ p'._spectra.map Prod.fst ↔ l ∈ c10Calls.map AddCall.label)
        ∧ (∀ l, dictFind p'._spectra l
            = (c10Calls.filter fun c => c.label == l).getLast?.map AddCall.spectrum) :=
  ⟨by decide, c10_append_only_colors 0 0 false c10Calls (by decide)⟩
